import Mathlib

/-!
Shallow embedding of the Simon game control core (src/esp32-simon-game.ino).

The game task `TaskGame` is a goto-structured state machine running on one
core, consuming button-press events produced by `TaskButtons` on the other
core through a bounded FreeRTOS queue (`buttonQueue`, capacity 10).  We embed
it as a labelled transition function on an explicit state record:

  * `GameState.phase` is the program counter of `TaskGame` (labels
    `MAIN_MENU`, `PLAYER_MENU`, the game-start pattern generation, the
    playback part of the game loop, the readback/verify part, the
    high-score handling after the game loop, and the post-game menu).
  * `GameState.queue` is the content of `buttonQueue` (FIFO of button
    indices).
  * `currentPlayer`, `highScore`, `highScoreTime` are the profile globals
    of the sketch; `store` models the NVS `Preferences` content as a total
    map from profile id to a (high, time) pair, with the get-default 0
    baked in (a `highScoreTime` of 0 encodes the absent timestamp, exactly
    as `showHighScoreTime` treats it).
  * `pattern`, `level`, `verifyIdx`, `finalScore` are the game-loop locals
    and the global pattern array.
  * `events` records the externally visible presentation and persistence
    calls the claims talk about: pattern playback steps, `savePlayerProfile`
    invocations, and the NEW HIGH SCORE celebration.

Environment interaction (concurrent button presses, RFID scan results, the
hardware RNG feeding `esp_random`, and the RTC time at game over) is made
explicit as the labels (`Act`) of the transition function, so a run of the
machine is a fold of `step` over a list of actions; `step` returns `none`
for an action that cannot occur in the current phase (for instance a
blocking `xQueueReceive` cannot complete on an empty queue).
-/

namespace Simon

/-- Number of Simon buttons (`#define NUM_BTNS 4`). -/
def NUM_BTNS : Nat := 4

/-- Maximum pattern length (`const int MAX_LEVEL = 32`). -/
def MAX_LEVEL : Nat := 32

/-- Capacity of `buttonQueue` (`xQueueCreate(10, sizeof(int))`). -/
def QUEUE_CAP : Nat := 10

/-- The NVS `Preferences` content, per profile id: the pair stored under the
keys `high_<id>` and `time_<id>`, with the library get-default of 0 for keys
never written baked into the total function. -/
abbrev Store := String → Nat × Nat

/-- Embeds `loadPlayerProfile` reads: `prefs.getInt("high_"+id, 0)` and
`prefs.getULong("time_"+id, 0)`. -/
def loadStore (st : Store) (id : String) : Nat × Nat := st id

/-- Embeds `savePlayerProfile(id, score, time)`: `prefs.putInt` and
`prefs.putULong` on the two keys of the profile. -/
def savePlayerProfile (st : Store) (id : String) (score time : Nat) : Store :=
  fun k => if k = id then (score, time) else st k

/-- Externally visible calls made by `TaskGame` that the claims are about. -/
inductive Ev where
  /-- One `playStep(pattern[i])` emitted during the playback phase. -/
  | playStep (b : Nat)
  /-- One `savePlayerProfile(id, score, time)` call. -/
  | save (id : String) (score time : Nat)
  /-- The NEW HIGH SCORE celebration (`playHighScoreAnimation` block). -/
  | newHigh (score : Nat)
deriving DecidableEq, Repr

/-- Program counter of `TaskGame`. -/
inductive Phase where
  /-- Just after `goto MAIN_MENU` / loop entry, before the stinger and the
  `xQueueReset` on the line after the `MAIN_MENU:` label. -/
  | mainMenuEntry
  /-- The profile-selection `while (!profileSelected)` loop. -/
  | mainMenu
  /-- The `PLAYER_MENU:` `while (!startGame)` loop. -/
  | playerMenu
  /-- Game start: about to fill `pattern[]` from `esp_random()`. -/
  | gameStart
  /-- Top of the `while (!gameOver)` loop: playback of the pattern up to
  `level`, ending with the `xQueueReset` before readback. -/
  | playback
  /-- The readback `for (i = 0; i < level; i++)` loop, at index `verifyIdx`,
  blocked on `xQueueReceive`. -/
  | verify
  /-- After the game loop exited with `gameOver`: the high-score handling
  and game-over presentation block. -/
  | gameOver
  /-- The post-game `1:Play Again / 2:Main Menu` menu loop. -/
  | postGame
deriving DecidableEq, Repr

/-- The state shared by / owned by `TaskGame`, plus the event queue and the
record of externally visible calls. -/
structure GameState where
  phase : Phase
  /-- Content of `buttonQueue`, head = next to be received. -/
  queue : List Nat
  currentPlayer : String
  highScore : Nat
  highScoreTime : Nat
  store : Store
  pattern : List Nat
  level : Nat
  verifyIdx : Nat
  finalScore : Nat
  events : List Ev

/-- Labels of the transition function: everything the environment feeds the
state machine. -/
inductive Act where
  /-- `TaskButtons` posts button index `b` with `xQueueSend(buttonQueue, &i, 0)`
  (non-blocking, dropped when the queue is full); it only ever posts indices
  below `NUM_BTNS`. -/
  | press (b : Nat)
  /-- `TaskGame` executes the menu stinger and the `xQueueReset` at the
  `MAIN_MENU:` label and enters the selection loop. -/
  | menuInit
  /-- One RFID poll in the selection loop: `some id` when
  `PICC_IsNewCardPresent && PICC_ReadCardSerial` succeed with that UID
  string, `none` when no card is present. -/
  | scan (uid : Option String)
  /-- The 60 ms timed `xQueueReceive` in the selection loop expires with the
  queue still empty. -/
  | timeout
  /-- A (timed or blocking) `xQueueReceive` completes with the queue head. -/
  | recv
  /-- Pattern generation at game start: the values returned by the
  `MAX_LEVEL` calls to `esp_random()`. -/
  | gen (rnds : List Nat)
  /-- The playback loop finishes showing `pattern[0..level-1]` and the
  `xQueueReset(buttonQueue)` before readback executes. -/
  | playbackDone
  /-- The post-loop high-score handling runs, reading `rtc.now().unixtime()`
  as `now`, and the machine reaches the post-game menu. -/
  | tick (now : Nat)
deriving DecidableEq, Repr

/-- `loadPlayerProfile(id)`: sets the three profile globals from the store. -/
def loadPlayerProfile (s : GameState) (id : String) : GameState :=
  { s with
      currentPlayer := id
      highScore := (loadStore s.store id).1
      highScoreTime := (loadStore s.store id).2 }

/-- `xQueueSend(buttonQueue, &b, 0)`: append if below capacity, else drop. -/
def enqueueBtn (q : List Nat) (b : Nat) : List Nat :=
  if q.length < QUEUE_CAP then q ++ [b] else q

/-- One transition of the embedded `TaskGame` (plus producer posts), labelled
by the environment action; `none` when the action cannot occur in the current
phase.  Each branch is a literal translation of the corresponding lines of
`TaskGame` in src/esp32-simon-game.ino. -/
def step (s : GameState) (a : Act) : Option GameState :=
  match a with
  | .press b =>
      -- TaskButtons only posts valid indices 0..NUM_BTNS-1.
      if b < NUM_BTNS then some { s with queue := enqueueBtn s.queue b } else none
  | .menuInit =>
      match s.phase with
      | .mainMenuEntry =>
          -- playMenuStinger(); xQueueReset(buttonQueue);
          some { s with queue := [], phase := .mainMenu }
      | _ => none
  | .scan uid =>
      match s.phase with
      | .mainMenu =>
          match uid with
          | some id =>
              -- loadPlayerProfile(uid); ... profileSelected = true; break;
              some { loadPlayerProfile s id with phase := .playerMenu }
          | none => some s
      | _ => none
  | .timeout =>
      match s.phase with
      | .mainMenu =>
          -- the 60 ms timed receive returns pdFALSE only on empty queue
          if s.queue = [] then some s else none
      | _ => none
  | .recv =>
      match s.queue with
      | [] => none
      | b :: rest =>
          match s.phase with
          | .mainMenu =>
              if b = 0 then
                -- loadPlayerProfile("DEFAULT"); ... profileSelected = true;
                some { loadPlayerProfile { s with queue := rest } "DEFAULT" with
                         phase := .playerMenu }
              else
                -- no branch taken for btn != 0: the event is consumed and
                -- the selection loop repeats
                some { s with queue := rest }
          | .playerMenu =>
              if b = 0 then
                -- startGame = true
                some { s with queue := rest, phase := .gameStart }
              else if b = 1 then
                -- highScore = 0; highScoreTime = 0;
                -- savePlayerProfile(currentPlayer, 0, 0);
                some { s with
                         queue := rest
                         highScore := 0
                         highScoreTime := 0
                         store := savePlayerProfile s.store s.currentPlayer 0 0
                         events := s.events ++ [.save s.currentPlayer 0 0] }
              else
                some { s with queue := rest }
          | .verify =>
              if b ≠ s.pattern.getD s.verifyIdx 0 then
                -- if (btn != pattern[i]) { gameOver = true; break; }
                some { s with queue := rest, phase := .gameOver }
              else if s.verifyIdx + 1 = s.level then
                -- readback loop ends; level++; if (level > MAX_LEVEL) cap
                some { s with
                         queue := rest
                         phase := .playback
                         verifyIdx := 0
                         level :=
                           if MAX_LEVEL < s.level + 1 then MAX_LEVEL
                           else s.level + 1 }
              else
                some { s with queue := rest, verifyIdx := s.verifyIdx + 1 }
          | .postGame =>
              if b = 0 then
                -- goto PLAYER_MENU (same profile retained)
                some { s with queue := rest, phase := .playerMenu }
              else if b = 1 then
                -- goto MAIN_MENU
                some { s with queue := rest, phase := .mainMenuEntry }
              else
                some { s with queue := rest }
          | _ => none
  | .gen rnds =>
      match s.phase with
      | .gameStart =>
          if rnds.length = MAX_LEVEL then
            -- for (i = 0; i < MAX_LEVEL; i++) pattern[i] = esp_random() % NUM_BTNS;
            -- int level = 1;
            some { s with
                     pattern := rnds.map (fun r => r % NUM_BTNS)
                     level := 1
                     phase := .playback }
          else none
      | _ => none
  | .playbackDone =>
      match s.phase with
      | .playback =>
          -- for (i = 0; i < level; i++) playStep(pattern[i]);
          -- xQueueReset(buttonQueue);
          some { s with
                   events := s.events ++ (s.pattern.take s.level).map Ev.playStep
                   queue := []
                   verifyIdx := 0
                   phase := .verify }
      | _ => none
  | .tick now =>
      match s.phase with
      | .gameOver =>
          -- int finalScore = level - 1; int oldHigh = highScore;
          let final := s.level - 1
          let oldHigh := s.highScore
          -- if (finalScore > highScore) { update + savePlayerProfile }
          let s1 :=
            if s.highScore < final then
              { s with
                  highScore := final
                  highScoreTime := now
                  store := savePlayerProfile s.store s.currentPlayer final now
                  events := s.events ++ [.save s.currentPlayer final now] }
            else s
          -- if (finalScore > oldHigh) { NEW HIGH SCORE celebration }
          let s2 :=
            if oldHigh < final then
              { s1 with events := s1.events ++ [.newHigh final] }
            else s1
          some { s2 with finalScore := final, phase := .postGame }
      | _ => none

/-- Run the machine through a list of environment actions; `none` as soon as
an action is impossible in its phase. -/
def run (s : GameState) (acts : List Act) : Option GameState :=
  match acts with
  | [] => some s
  | a :: rest => (step s a).bind (fun s' => run s' rest)

/-- The state right after `setup()` hands control to the tasks: `prefs`
holds `st`, `loadPlayerProfile("DEFAULT")` has run, the queue is freshly
created and empty, the global `pattern[MAX_LEVEL]` array is zero-initialised,
and `TaskGame` is about to execute the `MAIN_MENU:` block. -/
def initState (st : Store) : GameState :=
  { phase := .mainMenuEntry
    queue := []
    currentPlayer := "DEFAULT"
    highScore := (loadStore st "DEFAULT").1
    highScoreTime := (loadStore st "DEFAULT").2
    store := st
    pattern := List.replicate MAX_LEVEL 0
    level := 1
    verifyIdx := 0
    finalScore := 0
    events := [] }

/-- Number of `savePlayerProfile` calls recorded in an event list. -/
def countSaves (es : List Ev) : Nat :=
  es.countP (fun e => match e with | .save _ _ _ => true | _ => false)

/-- Number of NEW HIGH SCORE celebrations recorded in an event list. -/
def countNewHigh (es : List Ev) : Nat :=
  es.countP (fun e => match e with | .newHigh _ => true | _ => false)

theorem countSaves_append (es fs : List Ev) :
    countSaves (es ++ fs) = countSaves es + countSaves fs :=
  List.countP_append _ _ _

theorem countNewHigh_append (es fs : List Ev) :
    countNewHigh (es ++ fs) = countNewHigh es + countNewHigh fs :=
  List.countP_append _ _ _

theorem countSaves_playSteps (xs : List Nat) :
    countSaves (xs.map Ev.playStep) = 0 := by
  simp [countSaves, List.countP_map]

/-- A `getD` lookup in a list of bounded entries is bounded (the default 0 is
below any positive bound). -/
theorem getD_lt_of_forall_lt (p : List Nat) (i c : Nat) (hc : 0 < c)
    (h : ∀ x ∈ p, x < c) : p.getD i 0 < c := by
  rw [List.getD_eq_getElem?_getD]
  cases hg : p[i]? with
  | none => simpa using hc
  | some a =>
      have ha : a ∈ p := by
        rw [List.getElem?_eq_some_iff] at hg
        obtain ⟨hl, rfl⟩ := hg
        exact List.getElem_mem hl
      simpa using h _ ha

/-- Lists that agree on their first `l` entries give equal `getD` lookups
below `l`. -/
theorem getD_congr_of_take_eq (p q : List Nat) (l i : Nat)
    (h : p.take l = q.take l) (hi : i < l) : p.getD i 0 = q.getD i 0 := by
  have h1 : (p.take l)[i]? = (q.take l)[i]? := by rw [h]
  rw [List.getElem?_take, List.getElem?_take, if_pos hi, if_pos hi] at h1
  rw [List.getD_eq_getElem?_getD, List.getD_eq_getElem?_getD, h1]

theorem run_append (s : GameState) (xs ys : List Act) :
    run s (xs ++ ys) = (run s xs).bind (fun t => run t ys) := by
  induction xs generalizing s with
  | nil => rfl
  | cons a xs ih =>
      simp only [List.cons_append, run]
      cases step s a with
      | none => rfl
      | some t => simp [ih]

/-- State invariant maintained by every transition: the level stays in
`[1, MAX_LEVEL]`, the pattern array keeps its fixed length and valid button
indices, and the readback index stays below the level while reading. -/
def Inv (s : GameState) : Prop :=
  1 ≤ s.level ∧ s.level ≤ MAX_LEVEL ∧ s.pattern.length = MAX_LEVEL ∧
    (∀ x ∈ s.pattern, x < NUM_BTNS) ∧
    (s.phase = .verify → s.verifyIdx < s.level)

theorem inv_init (st : Store) : Inv (initState st) := by
  refine ⟨le_refl 1, ?_, ?_, ?_, ?_⟩
  · simp [initState, MAX_LEVEL]
  · simp [initState]
  · intro x hx
    simp only [initState] at hx
    rw [List.mem_replicate] at hx
    simp [NUM_BTNS, hx.2]
  · intro h
    simp [initState] at h

theorem inv_step {s s' : GameState} {a : Act} (hInv : Inv s)
    (hstep : step s a = some s') : Inv s' := by
  obtain ⟨h1, h2, h3, h4, h5⟩ := hInv
  cases a with
  | press b =>
      simp only [step] at hstep
      split at hstep
      · cases hstep
        exact ⟨h1, h2, h3, h4, h5⟩
      · simp at hstep
  | menuInit =>
      simp only [step] at hstep
      split at hstep
      · cases hstep
        exact ⟨h1, h2, h3, h4, fun h => by simp [loadPlayerProfile] at h⟩
      · simp at hstep
  | scan uid =>
      simp only [step] at hstep
      split at hstep
      · split at hstep
        · cases hstep
          exact ⟨h1, h2, h3, h4, fun h => by simp [loadPlayerProfile] at h⟩
        · cases hstep
          exact ⟨h1, h2, h3, h4, h5⟩
      · simp at hstep
  | timeout =>
      simp only [step] at hstep
      split at hstep
      · split at hstep
        · cases hstep
          exact ⟨h1, h2, h3, h4, h5⟩
        · simp at hstep
      · simp at hstep
  | recv =>
      simp only [step] at hstep
      split at hstep
      · simp at hstep
      · rename_i b rest hq
        split at hstep
        · -- mainMenu
          split at hstep
          · cases hstep
            exact ⟨h1, h2, h3, h4, fun h => by simp [loadPlayerProfile] at h⟩
          · cases hstep
            exact ⟨h1, h2, h3, h4, h5⟩
        · -- playerMenu
          split at hstep
          · cases hstep
            exact ⟨h1, h2, h3, h4, fun h => by simp [loadPlayerProfile] at h⟩
          · split at hstep
            · cases hstep
              exact ⟨h1, h2, h3, h4, h5⟩
            · cases hstep
              exact ⟨h1, h2, h3, h4, h5⟩
        · -- verify
          rename_i hphase
          split at hstep
          · cases hstep
            exact ⟨h1, h2, h3, h4, fun h => by simp [loadPlayerProfile] at h⟩
          · split at hstep
            · cases hstep
              refine ⟨?_, ?_, h3, h4, fun h => by simp [loadPlayerProfile] at h⟩ <;>
                · simp only [MAX_LEVEL]
                  split <;> omega
            · rename_i hne hlast
              cases hstep
              have hv : s.verifyIdx < s.level := h5 hphase
              refine ⟨h1, h2, h3, h4, fun _ => ?_⟩
              show s.verifyIdx + 1 < s.level
              omega
        · -- postGame
          split at hstep
          · cases hstep
            exact ⟨h1, h2, h3, h4, fun h => by simp [loadPlayerProfile] at h⟩
          · split at hstep
            · cases hstep
              exact ⟨h1, h2, h3, h4, fun h => by simp [loadPlayerProfile] at h⟩
            · cases hstep
              exact ⟨h1, h2, h3, h4, h5⟩
        · simp at hstep
  | gen rnds =>
      simp only [step] at hstep
      split at hstep
      · split at hstep
        · rename_i hlen
          cases hstep
          refine ⟨le_refl 1, by simp [MAX_LEVEL], ?_, ?_, fun h => by simp [loadPlayerProfile] at h⟩
          · simpa using hlen
          · intro x hx
            rw [List.mem_map] at hx
            obtain ⟨r, _, rfl⟩ := hx
            exact Nat.mod_lt _ (by simp [NUM_BTNS])
        · simp at hstep
      · simp at hstep
  | playbackDone =>
      simp only [step] at hstep
      split at hstep
      · cases hstep
        exact ⟨h1, h2, h3, h4, fun _ => h1⟩
      · simp at hstep
  | tick now =>
      simp only [step] at hstep
      split at hstep
      · by_cases hc : s.highScore < s.level - 1
        · rw [if_pos hc, if_pos hc] at hstep
          cases hstep
          exact ⟨h1, h2, h3, h4, fun h => by simp [loadPlayerProfile] at h⟩
        · rw [if_neg hc, if_neg hc] at hstep
          cases hstep
          exact ⟨h1, h2, h3, h4, fun h => by simp [loadPlayerProfile] at h⟩
      · simp at hstep

theorem inv_run {s s' : GameState} {acts : List Act} (hInv : Inv s)
    (h : run s acts = some s') : Inv s' := by
  induction acts generalizing s with
  | nil =>
      simp only [run] at h
      cases h
      exact hInv
  | cons a rest ih =>
      simp only [run] at h
      cases hs : step s a with
      | none => rw [hs] at h; simp at h
      | some t =>
          rw [hs] at h
          simp only [Option.some_bind] at h
          exact ih (inv_step hInv hs) h

/-- The all-unknown store: every profile loads as (0, 0). -/
def store0 : Store := fun _ => (0, 0)

/-- A store in which every profile (in particular DEFAULT) holds best level 5
achieved at timestamp 42. -/
def store5 : Store := fun _ => (5, 42)

/-- The all-zero pattern, as produced by `gen` from 32 zero randoms. -/
def pat0 : List Nat := List.replicate 32 0

/-- Equation for a producer post: the queue grows (or drops on full), nothing
else moves. -/
theorem step_press (s : GameState) (b : Nat) (hb : b < NUM_BTNS) :
    step s (.press b) = some { s with queue := enqueueBtn s.queue b } := by
  simp only [step]
  rw [if_pos hb]

/-- Equation for the playback phase ending: playback events are emitted for
the prefix of the pattern up to `level`, then the queue is flushed and the
readback starts at index 0. -/
theorem step_playbackDone (s : GameState) (hp : s.phase = .playback) :
    step s .playbackDone =
      some { s with
               events := s.events ++ (s.pattern.take s.level).map Ev.playStep
               queue := []
               verifyIdx := 0
               phase := .verify } := by
  simp only [step, hp]

/-- Equation for a correct readback press that is not the last of the level. -/
theorem step_recv_verify_next (s : GameState) (rest : List Nat)
    (hp : s.phase = .verify)
    (hq : s.queue = s.pattern.getD s.verifyIdx 0 :: rest)
    (hlast : s.verifyIdx + 1 ≠ s.level) :
    step s .recv = some { s with queue := rest, verifyIdx := s.verifyIdx + 1 } := by
  simp only [step, hq, hp]
  rw [if_neg (by simp), if_neg hlast]

/-- Equation for the last correct readback press of a level: the level is
incremented and capped at `MAX_LEVEL`, and the loop returns to playback. -/
theorem step_recv_verify_correct (s : GameState) (rest : List Nat)
    (hp : s.phase = .verify)
    (hq : s.queue = s.pattern.getD s.verifyIdx 0 :: rest)
    (hlast : s.verifyIdx + 1 = s.level) :
    step s .recv =
      some { s with
               queue := rest
               phase := .playback
               verifyIdx := 0
               level := if MAX_LEVEL < s.level + 1 then MAX_LEVEL else s.level + 1 } := by
  simp only [step, hq, hp]
  rw [if_neg (by simp), if_pos hlast]

/-- Equation for a readback press that mismatches the pattern. -/
theorem step_recv_verify_wrong (s : GameState) (b : Nat) (rest : List Nat)
    (hp : s.phase = .verify) (hq : s.queue = b :: rest)
    (hb : b ≠ s.pattern.getD s.verifyIdx 0) :
    step s .recv = some { s with queue := rest, phase := .gameOver } := by
  simp only [step, hq, hp]
  rw [if_pos hb]

/-- The environment actions for a correct readback of `n` pattern entries
starting at index `i`: each press (of the expected entry) followed by the
blocking receive that consumes it. -/
def correctInputs (p : List Nat) (i n : Nat) : List Act :=
  match n with
  | 0 => []
  | Nat.succ m => .press (p.getD i 0) :: .recv :: correctInputs p (i + 1) m

/-- The actions of one fully correct level: the playback phase followed by a
correct readback of the first `level` pattern entries. -/
def correctLevel (p : List Nat) (l : Nat) : List Act :=
  .playbackDone :: correctInputs p 0 l

/-- The actions of playing levels `1 .. L` fully correctly. -/
def correctPlay (p : List Nat) (L : Nat) : List Act :=
  match L with
  | 0 => []
  | Nat.succ m => correctPlay p m ++ correctLevel p (Nat.succ m)

/-- Running a fully correct readback from index `verifyIdx` through the end
of the level advances the level (capped at `MAX_LEVEL`) and returns to the
playback phase, touching neither the store nor the recorded events. -/
theorem correctInputs_run : ∀ (n : Nat) (s : GameState), s.phase = .verify →
    s.queue = [] → s.verifyIdx + (n + 1) = s.level →
    (∀ x ∈ s.pattern, x < NUM_BTNS) →
    run s (correctInputs s.pattern s.verifyIdx (n + 1)) =
      some { s with
               phase := .playback
               verifyIdx := 0
               queue := []
               level := if MAX_LEVEL < s.level + 1 then MAX_LEVEL else s.level + 1 } := by
  intro n
  induction n with
  | zero =>
      intro s hp hq hl hmem
      have hb : s.pattern.getD s.verifyIdx 0 < NUM_BTNS :=
        getD_lt_of_forall_lt _ _ _ (by simp [NUM_BTNS]) hmem
      have e1 := step_press s (s.pattern.getD s.verifyIdx 0) hb
      have e2 := step_recv_verify_correct { s with
          queue := enqueueBtn s.queue (s.pattern.getD s.verifyIdx 0) } []
        hp (by show enqueueBtn s.queue _ = _; rw [hq]; rfl)
        (by show s.verifyIdx + 1 = s.level; omega)
      simp only [correctInputs, run, e1, Option.some_bind, e2]
  | succ m ih =>
      intro s hp hq hl hmem
      have hb : s.pattern.getD s.verifyIdx 0 < NUM_BTNS :=
        getD_lt_of_forall_lt _ _ _ (by simp [NUM_BTNS]) hmem
      have e1 := step_press s (s.pattern.getD s.verifyIdx 0) hb
      have e2 := step_recv_verify_next { s with
          queue := enqueueBtn s.queue (s.pattern.getD s.verifyIdx 0) } []
        hp (by show enqueueBtn s.queue _ = _; rw [hq]; rfl)
        (by show s.verifyIdx + 1 ≠ s.level; omega)
      have e3 := ih { s with queue := [], verifyIdx := s.verifyIdx + 1 }
        hp rfl (by show s.verifyIdx + 1 + (m + 1) = s.level; omega) hmem
      simp only [correctInputs, run, e1, Option.some_bind, e2]
      exact e3

/-- Running one fully correct level from the playback phase: the level
advances (capped at `MAX_LEVEL`), control returns to the playback phase, the
queue ends empty, and the only new events are the playback steps of the
pattern prefix of the level (in particular, no store write happens). -/
theorem correctLevel_run (s : GameState) (hp : s.phase = .playback)
    (h1 : 1 ≤ s.level) (hmem : ∀ x ∈ s.pattern, x < NUM_BTNS) :
    run s (correctLevel s.pattern s.level) =
      some { s with
               phase := .playback
               verifyIdx := 0
               queue := []
               level := if MAX_LEVEL < s.level + 1 then MAX_LEVEL else s.level + 1
               events := s.events ++ (s.pattern.take s.level).map Ev.playStep } := by
  obtain ⟨m, hm⟩ : ∃ m, s.level = m + 1 := ⟨s.level - 1, by omega⟩
  have e1 := step_playbackDone s hp
  have e2 := correctInputs_run m { s with
      events := s.events ++ (s.pattern.take s.level).map Ev.playStep
      queue := []
      verifyIdx := 0
      phase := .verify }
    rfl rfl (by show 0 + (m + 1) = s.level; omega) hmem
  simp only [correctLevel, run, e1, Option.some_bind]
  rw [hm]
  rw [hm] at e2
  exact e2

/-- Running levels `1 .. L` fully correctly from a fresh session (playback
phase at level 1): the machine is again in the playback phase at level
`min (L + 1) MAX_LEVEL`, with the profile variables and the store untouched
and no `savePlayerProfile` call recorded. -/
theorem correctPlay_run : ∀ (L : Nat) (s : GameState), L ≤ MAX_LEVEL →
    s.phase = .playback → s.level = 1 → (∀ x ∈ s.pattern, x < NUM_BTNS) →
    ∃ s', run s (correctPlay s.pattern L) = some s' ∧
      s'.phase = .playback ∧ s'.level = min (L + 1) MAX_LEVEL ∧
      s'.pattern = s.pattern ∧ s'.store = s.store ∧
      s'.currentPlayer = s.currentPlayer ∧ s'.highScore = s.highScore ∧
      s'.highScoreTime = s.highScoreTime ∧
      countSaves s'.events = countSaves s.events ∧
      countNewHigh s'.events = countNewHigh s.events := by
  intro L
  induction L with
  | zero =>
      intro s _ hp hl hmem
      exact ⟨s, rfl, hp, by rw [hl]; decide, rfl, rfl, rfl, rfl, rfl, rfl, rfl⟩
  | succ m ih =>
      intro s hL hp hl hmem
      obtain ⟨t, ht, htp, htl, htpat, htst, htcp, hths, htht, htcs, htcn⟩ :=
        ih s (by omega) hp hl hmem
      have hmemt : ∀ x ∈ t.pattern, x < NUM_BTNS := by rw [htpat]; exact hmem
      have h1t : 1 ≤ t.level := by
        rw [htl]
        simp [MAX_LEVEL]
      have e2 := correctLevel_run t htp h1t hmemt
      have hlt : t.level = m + 1 := by
        rw [htl]
        have : m + 1 ≤ 32 := by simpa [MAX_LEVEL] using hL
        simp [MAX_LEVEL]
        omega
      refine ⟨{ t with
                  phase := .playback
                  verifyIdx := 0
                  queue := []
                  level := if MAX_LEVEL < t.level + 1 then MAX_LEVEL else t.level + 1
                  events := t.events ++ (t.pattern.take t.level).map Ev.playStep },
        ?_, rfl, ?_, ?_, ?_, ?_, ?_, ?_, ?_, ?_⟩
      · show run s (correctPlay s.pattern m ++ correctLevel s.pattern (m + 1)) = _
        rw [run_append, ht, Option.some_bind, ← htpat, ← hlt]
        exact e2
      · show (if MAX_LEVEL < t.level + 1 then MAX_LEVEL else t.level + 1) =
          min (m + 1 + 1) MAX_LEVEL
        rw [hlt]
        simp only [MAX_LEVEL]
        split <;> omega
      · show t.pattern = s.pattern
        exact htpat
      · show t.store = s.store
        exact htst
      · show t.currentPlayer = s.currentPlayer
        exact htcp
      · show t.highScore = s.highScore
        exact hths
      · show t.highScoreTime = s.highScoreTime
        exact htht
      · show countSaves (t.events ++ (t.pattern.take t.level).map Ev.playStep) =
          countSaves s.events
        rw [countSaves_append, countSaves_playSteps, htcs]
        omega
      · show countNewHigh (t.events ++ (t.pattern.take t.level).map Ev.playStep) =
          countNewHigh s.events
        rw [countNewHigh_append, htcn]
        have : countNewHigh ((t.pattern.take t.level).map Ev.playStep) = 0 := by
          simp only [countNewHigh, List.countP_map]
          exact List.countP_eq_zero.mpr (fun a _ h => nomatch h)
        rw [this]
        omega


/-! ### Claim C1 (flush invariant at menu boundaries) -/

/-- Claim C1 is refuted on the code: a press of the local-profile control
enqueued while the machine is still in MAIN_MENU (strictly before the
MAIN_MENU to PLAYER_MENU boundary) is still in the channel right after the
boundary is crossed, and the very next blocking read in PLAYER_MENU
receives it (starting the game).  The queue is only flushed at MAIN_MENU
entry and before each readback, not at the boundary itself. -/
theorem C1_counterexample :
    (run (initState store0) [.menuInit, .press 0, .press 0, .recv]).map
        (fun s => (s.phase, s.queue)) = some (Phase.playerMenu, [0]) ∧
      (run (initState store0) [.menuInit, .press 0, .press 0, .recv, .recv]).map
          (fun s => s.phase) = some Phase.gameStart := by
  constructor <;> rfl

/-- Claim C1 (amended): the channel flushes happen at MAIN_MENU entry
(`xQueueReset` right after the `MAIN_MENU:` label) and immediately before
each readback phase (`xQueueReset` after playback), and right after those
two steps the channel holds no event enqueued before them; the claimed
MAIN_MENU to PLAYER_MENU and GAME_OVER to REPLAY_MENU boundaries perform no
flush, so stale pre-boundary events can survive them (see the
counterexample). -/
theorem C1_flush_points (s s' : GameState) (a : Act)
    (h : a = .menuInit ∨ a = .playbackDone) (hstep : step s a = some s') :
    s'.queue = [] := by
  rcases h with rfl | rfl <;>
    · simp only [step] at hstep
      split at hstep
      · cases hstep
        rfl
      · simp at hstep

/-- Fixture: the state right after the MAIN_MENU entry flush from boot. -/
def sMenu0 : GameState :=
  { initState store0 with queue := [], phase := Phase.mainMenu }

/-- Witness for C1_flush_points at the boot state taking the MAIN_MENU
entry step. -/
theorem C1_flush_points_witness : sMenu0.queue = [] :=
  C1_flush_points (initState store0) sMenu0 .menuInit (Or.inl rfl) rfl

/-! ### Claim C4 (mismatch ends the session with finalScore = L - 1) -/

/-- Claim C4: a readback press that differs from the expected pattern entry
(at any readback index) moves the machine to the game-over handling with the
level unchanged, and the subsequent high-score handling computes
finalScore = level - 1, independent of the mismatch position. -/
theorem C4_mismatch_final_score (s s1 s2 : GameState) (b : Nat)
    (rest : List Nat) (now : Nat) (hp : s.phase = .verify)
    (hq : s.queue = b :: rest) (hb : b ≠ s.pattern.getD s.verifyIdx 0)
    (h1 : step s .recv = some s1) (h2 : step s1 (.tick now) = some s2) :
    s1.phase = .gameOver ∧ s1.level = s.level ∧
      s2.finalScore = s.level - 1 ∧ s2.phase = .postGame := by
  rw [step_recv_verify_wrong s b rest hp hq hb] at h1
  cases h1
  refine ⟨rfl, rfl, ?_, ?_⟩ <;>
    · simp only [step] at h2
      by_cases hc : s.highScore < s.level - 1
      · rw [if_pos hc, if_pos hc] at h2
        cases h2
        rfl
      · rw [if_neg hc, if_neg hc] at h2
        cases h2
        rfl

/-- Fixture: a readback state at level 3, index 1, with a mismatching press
(control 1, expected 0) pending. -/
def sVerA : GameState :=
  { phase := .verify
    queue := [1]
    currentPlayer := "DEFAULT"
    highScore := 0
    highScoreTime := 0
    store := store0
    pattern := pat0
    level := 3
    verifyIdx := 1
    finalScore := 0
    events := [] }

/-- Fixture: `sVerA` after the mismatching receive. -/
def sVerA1 : GameState := { sVerA with queue := [], phase := Phase.gameOver }

/-- Fixture: `sVerA1` after the high-score handling at time 7 (finalScore 2
beats the stored best 0). -/
def sVerA2 : GameState :=
  { sVerA1 with
      highScore := 2
      highScoreTime := 7
      store := savePlayerProfile sVerA1.store sVerA1.currentPlayer 2 7
      events := sVerA1.events ++ [Ev.save sVerA1.currentPlayer 2 7, Ev.newHigh 2]
      finalScore := 2
      phase := Phase.postGame }

/-- Witness for C4 at the concrete mismatch: finalScore is 2 = 3 - 1 even
though the mismatch was at index 1. -/
theorem C4_witness :
    sVerA1.phase = .gameOver ∧ sVerA1.level = sVerA.level ∧
      sVerA2.finalScore = sVerA.level - 1 ∧ sVerA2.phase = .postGame :=
  C4_mismatch_final_score sVerA sVerA1 sVerA2 1 [] 7 rfl rfl (by decide) rfl rfl

/-! ### Claim C7 (profile reset round-trips to (0, none)) -/

/-- Claim C7: the clear control (index 1) in the player menu zeroes the
in-memory best and timestamp and persists (0, 0) for the current profile,
so a load for that profile performed after the reset returns (0, 0) - with
0 encoding the absent timestamp, as `showHighScoreTime` does; and in
general a save of (0, 0) followed by a load of the same id round-trips. -/
theorem C7_clear_resets_store (s s' : GameState) (rest : List Nat)
    (hp : s.phase = .playerMenu) (hq : s.queue = 1 :: rest)
    (hstep : step s .recv = some s') :
    s'.highScore = 0 ∧ s'.highScoreTime = 0 ∧
      loadStore s'.store s.currentPlayer = (0, 0) ∧
      ∀ (st : Store) (id : String), loadStore (savePlayerProfile st id 0 0) id = (0, 0) := by
  have e : step s .recv = some { s with
      queue := rest
      highScore := 0
      highScoreTime := 0
      store := savePlayerProfile s.store s.currentPlayer 0 0
      events := s.events ++ [Ev.save s.currentPlayer 0 0] } := by
    simp only [step, hq, hp]
    simp
  rw [e] at hstep
  cases hstep
  refine ⟨rfl, rfl, by simp [loadStore, savePlayerProfile], ?_⟩
  intro st id
  simp [loadStore, savePlayerProfile]

/-- Fixture: a player-menu state for profile P1 with best 7 and a pending
press of the clear control. -/
def sPlayerA : GameState :=
  { phase := .playerMenu
    queue := [1]
    currentPlayer := "P1"
    highScore := 7
    highScoreTime := 99
    store := store5
    pattern := pat0
    level := 1
    verifyIdx := 0
    finalScore := 0
    events := [] }

/-- Fixture: `sPlayerA` after the clear. -/
def sPlayerA1 : GameState :=
  { sPlayerA with
      queue := []
      highScore := 0
      highScoreTime := 0
      store := savePlayerProfile sPlayerA.store sPlayerA.currentPlayer 0 0
      events := sPlayerA.events ++ [Ev.save sPlayerA.currentPlayer 0 0] }

/-- Witness for C7: the concrete reset round-trips to (0, 0). -/
theorem C7_witness : loadStore sPlayerA1.store sPlayerA.currentPlayer = (0, 0) :=
  (C7_clear_resets_store sPlayerA sPlayerA1 [] rfl rfl rfl).2.2.1

/-! ### Claim C10 (non-zero presses in MAIN_MENU are consumed and dropped) -/

/-- Claim C10: in the MAIN_MENU selection loop, a received press whose
control index is not 0 is consumed from the channel and discarded: the
successor state is the old state with exactly that event removed from the
queue - no profile is loaded, the phase is unchanged, the event can never
reach a later state, and every other state variable (current profile, best
level, timestamp, pattern, level) is untouched. -/
theorem C10_nonzero_press_discarded (s : GameState) (b : Nat) (rest : List Nat)
    (hp : s.phase = .mainMenu) (hq : s.queue = b :: rest) (hb : b ≠ 0) :
    step s .recv = some { s with queue := rest } := by
  simp only [step, hq, hp]
  rw [if_neg hb]

/-- Fixture: a main-menu state with presses of controls 2 then 0 pending. -/
def sMenuA : GameState :=
  { phase := .mainMenu
    queue := [2, 0]
    currentPlayer := "DEFAULT"
    highScore := 0
    highScoreTime := 0
    store := store0
    pattern := pat0
    level := 1
    verifyIdx := 0
    finalScore := 0
    events := [] }

/-- Witness for C10: the pending press of control 2 is dropped whole. -/
theorem C10_witness : step sMenuA .recv = some { sMenuA with queue := [0] } :=
  C10_nonzero_press_discarded sMenuA 2 [0] rfl rfl (by decide)

theorem countNewHigh_save_singleton (id : String) (sc t : Nat) :
    countNewHigh [Ev.save id sc t] = 0 := rfl

theorem countNewHigh_newHigh_singleton (sc : Nat) :
    countNewHigh [Ev.newHigh sc] = 1 := rfl

theorem countSaves_save_singleton (id : String) (sc t : Nat) :
    countSaves [Ev.save id sc t] = 1 := rfl

theorem countSaves_newHigh_singleton (sc : Nat) :
    countSaves [Ev.newHigh sc] = 0 := rfl

/-! ### Claim C3 (the celebration compares against the pre-update best) -/

/-- Claim C3: the NEW HIGH SCORE celebration fires exactly when finalScore
(= level - 1) strictly exceeds the best as it stood when the game-over
handling began (the pre-update `oldHigh`), even though by the time the
presentation decision is made the in-memory best has already been
overwritten with finalScore (third conjunct). -/
theorem C3_new_high_uses_pre_update_best (s s' : GameState) (now : Nat)
    (hp : s.phase = .gameOver) (hstep : step s (.tick now) = some s') :
    (countNewHigh s'.events = countNewHigh s.events + 1 ↔
        s.highScore < s.level - 1) ∧
      (¬ s.highScore < s.level - 1 →
        countNewHigh s'.events = countNewHigh s.events) ∧
      s'.highScore =
        (if s.highScore < s.level - 1 then s.level - 1 else s.highScore) ∧
      s'.finalScore = s.level - 1 := by
  simp only [step, hp] at hstep
  by_cases hc : s.highScore < s.level - 1
  · rw [if_pos hc, if_pos hc] at hstep
    cases hstep
    refine ⟨⟨fun _ => hc, fun _ => ?_⟩, fun h => absurd hc h, by rw [if_pos hc], rfl⟩
    show countNewHigh ((s.events ++ [Ev.save s.currentPlayer (s.level - 1) now]) ++
        [Ev.newHigh (s.level - 1)]) = countNewHigh s.events + 1
    rw [countNewHigh_append, countNewHigh_append, countNewHigh_save_singleton,
      countNewHigh_newHigh_singleton]
  · rw [if_neg hc, if_neg hc] at hstep
    cases hstep
    exact ⟨⟨fun h => absurd
        (show countNewHigh s.events = countNewHigh s.events + 1 from h)
        (by omega), fun h => absurd h hc⟩, fun _ => rfl,
      by rw [if_neg hc], rfl⟩

/-- Fixture: a game-over state at level 3 whose profile best is already 2,
a tie with the final score. -/
def sOverB : GameState :=
  { phase := .gameOver
    queue := []
    currentPlayer := "DEFAULT"
    highScore := 2
    highScoreTime := 11
    store := store0
    pattern := pat0
    level := 3
    verifyIdx := 0
    finalScore := 0
    events := [] }

/-- Fixture: `sOverB` after the high-score handling (tie: nothing fires). -/
def sOverB1 : GameState :=
  { sOverB with finalScore := 2, phase := Phase.postGame }

/-- Witness for C3: on a tie no celebration is recorded. -/
theorem C3_witness : countNewHigh sOverB1.events = countNewHigh sOverB.events :=
  (C3_new_high_uses_pre_update_best sOverB sOverB1 900 rfl rfl).2.1 (by decide)

/-! ### Claim C2 (when the game-over save fires) -/

/-- Claim C2 is refuted on the code: over a whole run the save condition is
NOT "finalScore greater than the best loaded at profile-selection time (as
possibly lowered by a clear)".  In this run the only profile selection
loads best 0 and no clear is performed; the second session ends with
finalScore 1 > 0, so the claim requires a save for it, but the machine -
which compares against the in-memory best 2 left by the first session -
performs exactly one save in total (the first session's (2, 500)). -/
theorem C2_counterexample :
    (run (initState store0)
          [.menuInit, .press 0, .recv, .press 0, .recv,
           .gen (List.replicate 32 0),
           .playbackDone, .press 0, .recv,
           .playbackDone, .press 0, .recv, .press 0, .recv,
           .playbackDone, .press 1, .recv, .tick 500,
           .press 0, .recv, .press 0, .recv, .gen (List.replicate 32 0),
           .playbackDone, .press 0, .recv,
           .playbackDone, .press 1, .recv, .tick 600]).map
        (fun s => (s.phase, s.finalScore, s.highScore, countSaves s.events,
          s.store "DEFAULT")) =
      some (Phase.postGame, 1, 2, 1, (2, 500)) ∧
      loadStore store0 "DEFAULT" = (0, 0) := by
  constructor <;> rfl

/-- Claim C2 (amended): the game-over save fires if and only if finalScore
(= level - 1) strictly exceeds the in-memory best at that moment - the
value produced by the most recent of: the profile load at selection time, an
explicit clear, or a previous session's high-score update in the same run.
In particular a tie never writes, and when it fires it persists
(finalScore, now) for the current profile. -/
theorem C2_save_iff_current_best (s s' : GameState) (now : Nat)
    (hp : s.phase = .gameOver) (hstep : step s (.tick now) = some s') :
    (countSaves s'.events = countSaves s.events + 1 ↔
        s.highScore < s.level - 1) ∧
      (¬ s.highScore < s.level - 1 →
        countSaves s'.events = countSaves s.events ∧ s'.store = s.store) ∧
      (s.highScore < s.level - 1 →
        s'.store = savePlayerProfile s.store s.currentPlayer (s.level - 1) now) ∧
      s'.finalScore = s.level - 1 := by
  simp only [step, hp] at hstep
  by_cases hc : s.highScore < s.level - 1
  · rw [if_pos hc, if_pos hc] at hstep
    cases hstep
    refine ⟨⟨fun _ => hc, fun _ => ?_⟩, fun h => absurd hc h, fun _ => rfl, rfl⟩
    show countSaves ((s.events ++ [Ev.save s.currentPlayer (s.level - 1) now]) ++
        [Ev.newHigh (s.level - 1)]) = countSaves s.events + 1
    rw [countSaves_append, countSaves_append, countSaves_save_singleton,
      countSaves_newHigh_singleton]
  · rw [if_neg hc, if_neg hc] at hstep
    cases hstep
    exact ⟨⟨fun h => absurd
        (show countSaves s.events = countSaves s.events + 1 from h)
        (by omega), fun h => absurd h hc⟩,
      fun _ => ⟨rfl, rfl⟩, fun h => absurd h hc, rfl⟩

/-- Witness for the amended C2: on the concrete tie state no save fires and
the store is untouched. -/
theorem C2_witness :
    countSaves sOverB1.events = countSaves sOverB.events ∧
      sOverB1.store = sOverB.store :=
  (C2_save_iff_current_best sOverB sOverB1 900 rfl rfl).2.1 (by decide)

/-! ### Claim C5 (returning to MAIN_MENU and the profile variables) -/

/-- Claim C5 is refuted on the code: taking the main-menu control from the
post-game menu jumps back to MAIN_MENU WITHOUT clearing the in-memory
profile state - right after the transition the machine still holds the
previous profile reference DEFAULT with best 5 and timestamp 42. -/
theorem C5_counterexample :
    (run (initState store5)
          [.menuInit, .press 0, .recv, .press 0, .recv,
           .gen (List.replicate 32 0),
           .playbackDone, .press 1, .recv, .tick 777, .press 1, .recv]).map
        (fun s => (s.phase, s.currentPlayer, s.highScore, s.highScoreTime)) =
      some (Phase.mainMenuEntry, "DEFAULT", 5, 42) := by
  rfl

/-- Claim C5 (amended): the REPLAY_MENU to MAIN_MENU transition leaves the
in-memory profile variables untouched (first conjunct: the old profile
reference, best and timestamp persist across it); they are only replaced at
the next profile selection, whose load overwrites all three from the store
as a function of the new id alone (second and third conjuncts), so once a
new profile is selected no state of the previous profile remains. -/
theorem C5_menu_return_keeps_until_reload :
    (∀ (s s' : GameState) (rest : List Nat), s.phase = .postGame →
        s.queue = 1 :: rest → step s .recv = some s' →
        s'.phase = .mainMenuEntry ∧ s'.currentPlayer = s.currentPlayer ∧
          s'.highScore = s.highScore ∧ s'.highScoreTime = s.highScoreTime) ∧
      (∀ (s s' : GameState) (id : String), s.phase = .mainMenu →
          step s (.scan (some id)) = some s' →
          s'.currentPlayer = id ∧ s'.highScore = (loadStore s.store id).1 ∧
            s'.highScoreTime = (loadStore s.store id).2 ∧
            s'.phase = .playerMenu) ∧
      ∀ (s s' : GameState) (rest : List Nat), s.phase = .mainMenu →
          s.queue = 0 :: rest → step s .recv = some s' →
          s'.currentPlayer = "DEFAULT" ∧
            s'.highScore = (loadStore s.store "DEFAULT").1 ∧
            s'.highScoreTime = (loadStore s.store "DEFAULT").2 ∧
            s'.phase = .playerMenu := by
  refine ⟨?_, ?_, ?_⟩
  · intro s s' rest hp hq hstep
    have e : step s .recv = some { s with queue := rest, phase := .mainMenuEntry } := by
      simp [step, hq, hp]
    rw [e] at hstep
    cases hstep
    exact ⟨rfl, rfl, rfl, rfl⟩
  · intro s s' id hp hstep
    have e : step s (.scan (some id)) =
        some { loadPlayerProfile s id with phase := .playerMenu } := by
      simp [step, hp]
    rw [e] at hstep
    cases hstep
    exact ⟨rfl, rfl, rfl, rfl⟩
  · intro s s' rest hp hq hstep
    have e : step s .recv =
        some { loadPlayerProfile { s with queue := rest } "DEFAULT" with
                 phase := .playerMenu } := by
      simp [step, hq, hp]
    rw [e] at hstep
    cases hstep
    exact ⟨rfl, rfl, rfl, rfl⟩

/-- Fixture: a post-game state for profile P2 with the main-menu control
pending. -/
def sPostB : GameState :=
  { phase := .postGame
    queue := [1]
    currentPlayer := "P2"
    highScore := 9
    highScoreTime := 314
    store := store5
    pattern := pat0
    level := 4
    verifyIdx := 0
    finalScore := 3
    events := [] }

/-- Fixture: `sPostB` after taking the main-menu control. -/
def sPostB1 : GameState :=
  { sPostB with queue := [], phase := Phase.mainMenuEntry }

/-- Fixture: a main-menu state still holding the stale P2 profile data, with
the local-profile control pending. -/
def sMenuB : GameState :=
  { phase := .mainMenu
    queue := [0]
    currentPlayer := "P2"
    highScore := 9
    highScoreTime := 314
    store := store0
    pattern := pat0
    level := 4
    verifyIdx := 0
    finalScore := 3
    events := [] }

/-- Fixture: `sMenuB` after the local-profile selection. -/
def sMenuB1 : GameState :=
  { loadPlayerProfile { sMenuB with queue := [] } "DEFAULT" with phase := Phase.playerMenu }

/-- Witness for the amended C5: the stale values survive the transition, and
a subsequent DEFAULT selection overwrites them from the store. -/
theorem C5_witness :
    (sPostB1.currentPlayer = sPostB.currentPlayer ∧
        sPostB1.highScore = sPostB.highScore) ∧
      sMenuB1.currentPlayer = "DEFAULT" ∧ sMenuB1.phase = Phase.playerMenu :=
  ⟨⟨(C5_menu_return_keeps_until_reload.1 sPostB sPostB1 [] rfl rfl rfl).2.1,
    (C5_menu_return_keeps_until_reload.1 sPostB sPostB1 [] rfl rfl rfl).2.2.1⟩,
   (C5_menu_return_keeps_until_reload.2.2 sMenuB sMenuB1 [] rfl rfl rfl).1,
   (C5_menu_return_keeps_until_reload.2.2 sMenuB sMenuB1 [] rfl rfl rfl).2.2.2⟩

/-! ### Claim C6 (level bounds, growth discipline, and the cap) -/

/-- Claim C6: (1) in every run the level stays within `[1, MAX_LEVEL]`;
(2) the level changes upward only on the last readback receive of a fully
correct replay (the consumed event matches the expected pattern entry at
index level - 1), and then by exactly one; (3) a fully correct replay at
level MAX_LEVEL leaves the level at MAX_LEVEL and returns to the playback
phase - play continues with the same max-length pattern instead of the game
ending. -/
theorem C6_level_bounds_and_growth :
    (∀ (st : Store) (acts : List Act) (s : GameState),
        run (initState st) acts = some s →
        1 ≤ s.level ∧ s.level ≤ MAX_LEVEL) ∧
      (∀ (s s' : GameState) (a : Act), 1 ≤ s.level → step s a = some s' →
          s.level < s'.level →
          s.phase = .verify ∧ a = .recv ∧ s'.level = s.level + 1 ∧
            s.verifyIdx + 1 = s.level ∧
            s.queue.head? = some (s.pattern.getD s.verifyIdx 0)) ∧
      ∀ (s s' : GameState) (b : Nat) (rest : List Nat), s.phase = .verify →
          s.level = MAX_LEVEL → s.verifyIdx + 1 = s.level →
          s.queue = b :: rest → b = s.pattern.getD s.verifyIdx 0 →
          step s .recv = some s' → s'.level = MAX_LEVEL ∧ s'.phase = .playback := by
  refine ⟨?_, ?_, ?_⟩
  · intro st acts s h
    have hInv := inv_run (inv_init st) h
    exact ⟨hInv.1, hInv.2.1⟩
  · intro s s' a h1 hstep hlt
    cases a with
    | press b =>
        simp only [step] at hstep
        split at hstep
        · cases hstep
          exact absurd hlt (lt_irrefl _)
        · simp at hstep
    | menuInit =>
        simp only [step] at hstep
        split at hstep
        · cases hstep
          exact absurd hlt (lt_irrefl _)
        · simp at hstep
    | scan uid =>
        simp only [step] at hstep
        split at hstep
        · split at hstep
          · cases hstep
            exact absurd hlt (lt_irrefl _)
          · cases hstep
            exact absurd hlt (lt_irrefl _)
        · simp at hstep
    | timeout =>
        simp only [step] at hstep
        split at hstep
        · split at hstep
          · cases hstep
            exact absurd hlt (lt_irrefl _)
          · simp at hstep
        · simp at hstep
    | recv =>
        simp only [step] at hstep
        split at hstep
        · simp at hstep
        · rename_i b rest hq
          split at hstep
          · split at hstep
            · cases hstep
              exact absurd hlt (lt_irrefl _)
            · cases hstep
              exact absurd hlt (lt_irrefl _)
          · split at hstep
            · cases hstep
              exact absurd hlt (lt_irrefl _)
            · split at hstep
              · cases hstep
                exact absurd hlt (lt_irrefl _)
              · cases hstep
                exact absurd hlt (lt_irrefl _)
          · rename_i hphase
            split at hstep
            · cases hstep
              exact absurd hlt (lt_irrefl _)
            · rename_i hne
              split at hstep
              · rename_i hlast
                cases hstep
                have hlt2 : s.level <
                    (if MAX_LEVEL < s.level + 1 then MAX_LEVEL else s.level + 1) :=
                  hlt
                by_cases hcap : MAX_LEVEL < s.level + 1
                · rw [if_pos hcap] at hlt2
                  exact absurd hlt2 (by omega)
                · refine ⟨hphase, rfl, ?_, hlast, ?_⟩
                  · show (if MAX_LEVEL < s.level + 1 then MAX_LEVEL
                        else s.level + 1) = s.level + 1
                    rw [if_neg hcap]
                  · rw [hq]
                    show some b = some (s.pattern.getD s.verifyIdx 0)
                    rw [not_not.mp hne]
              · cases hstep
                exact absurd hlt (lt_irrefl _)
          · split at hstep
            · cases hstep
              exact absurd hlt (lt_irrefl _)
            · split at hstep
              · cases hstep
                exact absurd hlt (lt_irrefl _)
              · cases hstep
                exact absurd hlt (lt_irrefl _)
          · simp at hstep
    | gen rnds =>
        simp only [step] at hstep
        split at hstep
        · split at hstep
          · cases hstep
            exact absurd hlt (by show ¬ s.level < 1; omega)
          · simp at hstep
        · simp at hstep
    | playbackDone =>
        simp only [step] at hstep
        split at hstep
        · cases hstep
          exact absurd hlt (lt_irrefl _)
        · simp at hstep
    | tick now =>
        simp only [step] at hstep
        split at hstep
        · by_cases hc : s.highScore < s.level - 1
          · rw [if_pos hc, if_pos hc] at hstep
            cases hstep
            exact absurd hlt (lt_irrefl _)
          · rw [if_neg hc, if_neg hc] at hstep
            cases hstep
            exact absurd hlt (lt_irrefl _)
        · simp at hstep
  · intro s s' b rest hphase hlev hlast hq hb hstep
    rw [step_recv_verify_correct s rest hphase (by rw [hq, hb]) hlast] at hstep
    cases hstep
    refine ⟨?_, rfl⟩
    show (if MAX_LEVEL < s.level + 1 then MAX_LEVEL else s.level + 1) = MAX_LEVEL
    rw [hlev]
    simp [MAX_LEVEL]

/-- Fixture: a readback state at the cap (level 32, last index 31) with the
correct final press pending. -/
def sCap : GameState :=
  { phase := .verify
    queue := [0]
    currentPlayer := "DEFAULT"
    highScore := 0
    highScoreTime := 0
    store := store0
    pattern := pat0
    level := 32
    verifyIdx := 31
    finalScore := 0
    events := [] }

/-- Fixture: `sCap` after the correct final press: still level 32, back in
playback. -/
def sCap1 : GameState :=
  { sCap with queue := [], phase := Phase.playback, verifyIdx := 0 }

/-- Witness for C6: the boot state satisfies the bounds, and the concrete
cap replay keeps the level at MAX_LEVEL with play continuing. -/
theorem C6_witness :
    (1 ≤ (initState store0).level ∧ (initState store0).level ≤ MAX_LEVEL) ∧
      sCap1.level = MAX_LEVEL ∧ sCap1.phase = Phase.playback :=
  ⟨C6_level_bounds_and_growth.1 store0 [] (initState store0) rfl,
   C6_level_bounds_and_growth.2.2 sCap sCap1 0 [] rfl rfl rfl rfl rfl rfl⟩

/-! ### Claim C9 (pattern generation and prefix-only consumption) -/

/-- Claim C9: (1) in every run the pattern has exactly MAX_LEVEL entries,
each a valid control index below NUM_BTNS; (2) no step other than the
game-start generation ever changes the pattern (it is generated once per
session and never mutated); (3) generation maps the MAX_LEVEL raw randoms
through mod NUM_BTNS and resets the level to 1; (4) during playback and
readback at level L only the prefix pattern[0..L-1] is consulted: replacing
the pattern by any list agreeing on the first L entries produces the same
transition (same events, same branch decisions), up to carrying the
replaced pattern along. -/
theorem C9_pattern_contract :
    (∀ (st : Store) (acts : List Act) (s : GameState),
        run (initState st) acts = some s →
        s.pattern.length = MAX_LEVEL ∧ ∀ x ∈ s.pattern, x < NUM_BTNS) ∧
      (∀ (s s' : GameState) (a : Act), step s a = some s' →
          s.phase ≠ .gameStart → s'.pattern = s.pattern) ∧
      (∀ (s s' : GameState) (rnds : List Nat), step s (.gen rnds) = some s' →
          s'.pattern = rnds.map (fun r => r % NUM_BTNS) ∧
            s'.pattern.length = MAX_LEVEL ∧ s'.level = 1 ∧
            s'.phase = .playback) ∧
      ∀ (s : GameState) (p2 : List Nat),
        s.pattern.take s.level = p2.take s.level →
        (s.phase = .playback →
            step { s with pattern := p2 } .playbackDone =
              (step s .playbackDone).map fun u => { u with pattern := p2 }) ∧
        (s.phase = .verify → s.verifyIdx < s.level →
            ∀ (b : Nat) (rest : List Nat), s.queue = b :: rest →
              step { s with pattern := p2 } .recv =
                (step s .recv).map fun u => { u with pattern := p2 }) := by
  refine ⟨?_, ?_, ?_, ?_⟩
  · intro st acts s h
    have hInv := inv_run (inv_init st) h
    exact ⟨hInv.2.2.1, hInv.2.2.2.1⟩
  · intro s s' a hstep hphase
    cases a with
    | press b =>
        simp only [step] at hstep
        split at hstep
        · cases hstep
          rfl
        · simp at hstep
    | menuInit =>
        simp only [step] at hstep
        split at hstep
        · cases hstep
          rfl
        · simp at hstep
    | scan uid =>
        simp only [step] at hstep
        split at hstep
        · split at hstep
          · cases hstep
            rfl
          · cases hstep
            rfl
        · simp at hstep
    | timeout =>
        simp only [step] at hstep
        split at hstep
        · split at hstep
          · cases hstep
            rfl
          · simp at hstep
        · simp at hstep
    | recv =>
        simp only [step] at hstep
        split at hstep
        · simp at hstep
        · split at hstep
          · split at hstep
            · cases hstep
              rfl
            · cases hstep
              rfl
          · split at hstep
            · cases hstep
              rfl
            · split at hstep
              · cases hstep
                rfl
              · cases hstep
                rfl
          · split at hstep
            · cases hstep
              rfl
            · split at hstep
              · cases hstep
                rfl
              · cases hstep
                rfl
          · split at hstep
            · cases hstep
              rfl
            · split at hstep
              · cases hstep
                rfl
              · cases hstep
                rfl
          · simp at hstep
    | gen rnds =>
        simp only [step] at hstep
        simp at hstep
    | playbackDone =>
        simp only [step] at hstep
        split at hstep
        · cases hstep
          rfl
        · simp at hstep
    | tick now =>
        simp only [step] at hstep
        split at hstep
        · by_cases hc : s.highScore < s.level - 1
          · rw [if_pos hc, if_pos hc] at hstep
            cases hstep
            rfl
          · rw [if_neg hc, if_neg hc] at hstep
            cases hstep
            rfl
        · simp at hstep
  · intro s s' rnds hstep
    simp only [step] at hstep
    split at hstep
    · split at hstep
      · rename_i hlen
        cases hstep
        exact ⟨rfl, by simpa using hlen, rfl, rfl⟩
      · simp at hstep
    · simp at hstep
  · intro s p2 htake
    constructor
    · intro hp
      rw [step_playbackDone s hp, step_playbackDone { s with pattern := p2 } hp]
      show some _ = some _
      rw [htake]
    · intro hp hvi b rest hq
      have hq2 : ({ s with pattern := p2 } : GameState).queue = b :: rest := hq
      have he : p2.getD s.verifyIdx 0 = s.pattern.getD s.verifyIdx 0 :=
        (getD_congr_of_take_eq s.pattern p2 s.level s.verifyIdx htake hvi).symm
      by_cases hb : b = s.pattern.getD s.verifyIdx 0
      · by_cases hlast : s.verifyIdx + 1 = s.level
        · rw [step_recv_verify_correct s rest hp (by rw [hq, hb]) hlast,
            step_recv_verify_correct { s with pattern := p2 } rest hp
              (by show s.queue = p2.getD s.verifyIdx 0 :: rest
                  rw [hq, hb, ← he]) hlast]
          rfl
        · rw [step_recv_verify_next s rest hp (by rw [hq, hb]) hlast,
            step_recv_verify_next { s with pattern := p2 } rest hp
              (by show s.queue = p2.getD s.verifyIdx 0 :: rest
                  rw [hq, hb, ← he]) hlast]
          rfl
      · rw [step_recv_verify_wrong s b rest hp hq hb,
          step_recv_verify_wrong { s with pattern := p2 } b rest hp hq2
            (by show b ≠ p2.getD s.verifyIdx 0
                rw [he]
                exact hb)]
        rfl

/-- Fixture: a game-start state about to generate from 32 raw randoms 3. -/
def sGen : GameState :=
  { phase := .gameStart
    queue := []
    currentPlayer := "DEFAULT"
    highScore := 0
    highScoreTime := 0
    store := store0
    pattern := pat0
    level := 5
    verifyIdx := 0
    finalScore := 0
    events := [] }

/-- Fixture: `sGen` after generation. -/
def sGen1 : GameState :=
  { sGen with
      pattern := (List.replicate 32 3).map (fun r => r % NUM_BTNS)
      level := 1
      phase := Phase.playback }

/-- Witness for C9: the boot pattern has full length, and a concrete
generation produces the mod-reduced randoms at level 1. -/
theorem C9_witness :
    (initState store0).pattern.length = MAX_LEVEL ∧
      sGen1.pattern = (List.replicate 32 3).map (fun r => r % NUM_BTNS) ∧
      sGen1.level = 1 :=
  ⟨(C9_pattern_contract.1 store0 [] (initState store0) rfl).1,
   (C9_pattern_contract.2.2.1 sGen sGen1 (List.replicate 32 3) rfl).1,
   (C9_pattern_contract.2.2.1 sGen sGen1 (List.replicate 32 3) rfl).2.2.1⟩

/-! ### Claim C8 (correct-prefix progression; no write before session end) -/

/-- Fixture: a fresh session right after generating the all-zero pattern:
playback phase, level 1, nothing recorded. -/
def s8 : GameState :=
  { phase := .playback
    queue := []
    currentPlayer := "DEFAULT"
    highScore := 0
    highScoreTime := 0
    store := store0
    pattern := pat0
    level := 1
    verifyIdx := 0
    finalScore := 0
    events := [] }

/-- Claim C8 is refuted at the cap: a full run from boot whose input events
match the generated pattern exactly through level L = MAX_LEVEL = 32 leaves
the machine PLAYING at level 32 (playback of the same max-length pattern) -
neither at PLAYING(level = L + 1 = 33) nor in GAME_OVER, the two outcomes
the claim offers; along the way no ProfileStore write is invoked (the save
count is still 0). -/
theorem C8_counterexample :
    (run (initState store0)
          ([.menuInit, .press 0, .recv, .press 0, .recv,
            .gen (List.replicate 32 0)] ++ correctPlay pat0 32)).map
        (fun s => (s.phase, s.level, countSaves s.events)) =
      some (Phase.playback, 32, 0) := by
  rw [run_append]
  have h0 : run (initState store0)
      [.menuInit, .press 0, .recv, .press 0, .recv,
       .gen (List.replicate 32 0)] = some s8 := rfl
  rw [h0, Option.some_bind]
  show (run s8 (correctPlay s8.pattern 32)).map
      (fun s => (s.phase, s.level, countSaves s.events)) =
    some (Phase.playback, 32, 0)
  obtain ⟨t, ht, htp, htl, hpat, hst, hcp, hhs, hht, htcs, htcn⟩ :=
    correctPlay_run 32 s8 (by decide) rfl rfl (by decide)
  rw [ht]
  show some (t.phase, t.level, countSaves t.events) = _
  rw [htp, htl, htcs]
  rfl

/-- Claim C8 (amended): from a fresh session (playback at level 1), input
events matching the generated pattern exactly through level L (L at most
MAX_LEVEL) drive the machine to PLAYING at level min(L + 1, MAX_LEVEL) -
PLAYING(L + 1) below the cap, and still PLAYING at MAX_LEVEL at the cap
(play continues; there is no game over on completing the last level) - and
no ProfileStore write is invoked at any point along the way: the store and
the recorded save count are unchanged before the session ends. -/
theorem C8_correct_play_progress (s : GameState) (L : Nat) (hL : L ≤ MAX_LEVEL)
    (hp : s.phase = .playback) (hl : s.level = 1)
    (hmem : ∀ x ∈ s.pattern, x < NUM_BTNS) :
    ∃ s', run s (correctPlay s.pattern L) = some s' ∧
      s'.phase = .playback ∧ s'.level = min (L + 1) MAX_LEVEL ∧
      s'.store = s.store ∧ countSaves s'.events = countSaves s.events :=
  (correctPlay_run L s hL hp hl hmem).elim fun t h =>
    ⟨t, h.1, h.2.1, h.2.2.1, h.2.2.2.2.1, h.2.2.2.2.2.2.2.2.1⟩

/-- Witness for the amended C8: one correct level from the fixture session
reaches PLAYING(2). -/
theorem C8_witness :
    (run s8 (correctPlay s8.pattern 1)).map (fun t => (t.phase, t.level)) =
      some (Phase.playback, min 2 MAX_LEVEL) := by
  obtain ⟨t, ht, htp, htl, _, _⟩ :=
    C8_correct_play_progress s8 1 (by decide) rfl rfl (by decide)
  rw [ht]
  show some (t.phase, t.level) = _
  rw [htp, htl]

end Simon
